import Mathlib

/-!
Shallow embedding of the growstocks client library (scopes.py, user.py,
transaction.py, wrapper.py, errors.py) and proofs about its data model and
dispatcher contract.

Python dynamic values that appear in decoded JSON objects are modelled by
`JVal` (flat values) and `EVal` (a flat value or a nested object); Python
dicts by association lists in insertion order.  Fallible Python code
(KeyError, ValueError, strptime failure, raised library exceptions) is
modelled with `Except`.
-/

namespace Growstocks

/-- A flat JSON/Python value: null, bool, int or str. -/
inductive JVal where
  | jNull
  | jBool (b : Bool)
  | jInt (n : Int)
  | jStr (s : String)
deriving DecidableEq, Repr

/-- An envelope-level value: a flat value or a nested JSON object. -/
inductive EVal where
  | prim (v : JVal)
  | obj (fields : List (String × JVal))
deriving DecidableEq, Repr

/-- A decoded JSON object with flat values (e.g. the `user` or `transaction`
payload), keys in insertion order. -/
abbrev Doc := List (String × JVal)

/-- A decoded response envelope: its values may be nested objects. -/
abbrev Envelope := List (String × EVal)

/-- Python `dict.get(k)`: `none` when the key is absent. -/
def pyGet (d : Doc) (k : String) : Option JVal :=
  (d.find? (fun p => p.1 == k)).map (fun p => p.2)

/-- `dict.get` on an envelope. -/
def envGet (env : Envelope) (k : String) : Option EVal :=
  (env.find? (fun p => p.1 == k)).map (fun p => p.2)

/-- The failure classification for decoding a server response (the spec's
DecodeError/ParseError taxonomy): a Python KeyError on a missing required
key, a ValueError/TypeError on a value of the wrong shape, or a strptime
failure on a malformed timestamp. -/
inductive DecodeError where
  | missingKey (k : String)
  | badValue (what : String)
  | parseError
deriving DecidableEq, Repr

/-- Python `d[k]`: KeyError when the key is absent. -/
def pyIndex (d : Doc) (k : String) : Except DecodeError JVal :=
  match pyGet d k with
  | some v => .ok v
  | none => .error (.missingKey k)

/-- ASCII whitespace, as `int()` strips it. -/
def isSpaceChar (c : Char) : Bool :=
  c = ' ' || c = '\t' || c = '\n' || c = '\r'

/-- Strip leading and trailing whitespace. -/
def trimChars (l : List Char) : List Char :=
  ((l.dropWhile isSpaceChar).reverse.dropWhile isSpaceChar).reverse

/-- Accumulate decimal digits; `none` on a non-digit. -/
def digitsToNatAux : Nat → List Char → Option Nat
  | acc, [] => some acc
  | acc, c :: rest =>
    if c.isDigit then digitsToNatAux (acc * 10 + (c.toNat - 48)) rest else none

/-- A non-empty all-digit sequence as a natural number. -/
def digitsToNat (l : List Char) : Option Nat :=
  if l.isEmpty then none else digitsToNatAux 0 l

/-- Python `int(x)` on a string: strips whitespace, then parses an optionally
signed decimal integer; ValueError (`none`) otherwise. -/
def pyIntOfString (s : String) : Option Int :=
  match trimChars s.data with
  | '-' :: ds => (digitsToNat ds).map (fun n => -(n : Int))
  | '+' :: ds => (digitsToNat ds).map (fun n => (n : Int))
  | ds => (digitsToNat ds).map (fun n => (n : Int))

/-- Python `int(x)` over flat values. -/
def pyInt : JVal → Except DecodeError Int
  | .jInt n => .ok n
  | .jBool b => .ok (if b then 1 else 0)
  | .jStr s =>
    match pyIntOfString s with
    | some n => .ok n
    | none => .error (.badValue "int")
  | .jNull => .error (.badValue "int")

/-! ## scopes.py -/

/-- The four scope flags stored on a `Scopes` object. -/
structure Scopes where
  profile : Bool
  email : Bool
  balance : Bool
  discord : Bool
deriving DecidableEq, Repr

/-- `Scopes.__init__`: `if balance or discord: profile = True`, then
`if email: profile = False`, then the four flags are stored. -/
def Scopes.init (profile email balance discord : Bool) : Scopes :=
  let profile1 := if balance || discord then true else profile
  let profile2 := if email then false else profile1
  ⟨profile2, email, balance, discord⟩

/-- `Scopes.as_dict`: the four flags keyed by name, in declaration order. -/
def Scopes.as_dict (s : Scopes) : List (String × Bool) :=
  [("profile", s.profile), ("email", s.email), ("balance", s.balance),
   ("discord", s.discord)]

/-- `Scopes.as_list`: the names of the flags whose value is true. -/
def Scopes.as_list (s : Scopes) : List String :=
  (s.as_dict.filter (fun p => p.2)).map (fun p => p.1)

/-- `Scopes.__str__`: the comma-join of `as_list`. -/
def Scopes.toStr (s : Scopes) : String :=
  String.intercalate "," s.as_list

/-- C1, counterexample: requesting `email` and `balance` together leaves
`balance` true but `profile` false, refuting the claimed implication
`balance ∨ discord ⟹ profile` (the email rule runs last and wins). -/
theorem scopes_balance_email_counterexample :
    (Scopes.init true true true false).balance = true ∧
    (Scopes.init true true true false).profile = false := by
  decide

/-- C1 (amended): for every boolean combination of the four constructor
arguments, the constructed `Scopes` satisfies `email ⟹ ¬profile` and
`(balance ∨ discord) ∧ ¬email ⟹ profile`, and its string form is exactly
the comma-joined list of the flags that ended up true, in the fixed order
profile, email, balance, discord, skipping false ones. -/
theorem scopes_init_normalization_toStr (p e b d : Bool) :
    ((Scopes.init p e b d).email = true → (Scopes.init p e b d).profile = false) ∧
    (((Scopes.init p e b d).balance = true ∨ (Scopes.init p e b d).discord = true) ∧
        (Scopes.init p e b d).email = false →
      (Scopes.init p e b d).profile = true) ∧
    Scopes.toStr (Scopes.init p e b d) =
      String.intercalate ","
        ((if (Scopes.init p e b d).profile then ["profile"] else []) ++
         (if (Scopes.init p e b d).email then ["email"] else []) ++
         (if (Scopes.init p e b d).balance then ["balance"] else []) ++
         (if (Scopes.init p e b d).discord then ["discord"] else [])) := by
  cases p <;> cases e <;> cases b <;> cases d <;> exact ⟨by decide, by decide, by decide⟩

/-! ## user.py -/

/-- A `User` object with the attribute types `User.__init__` annotates:
a required integer `id` and five optional fields. -/
structure User where
  id : Int
  name : Option String
  email : Option String
  growid : Option String
  balance : Option Int
  discord_id : Option Int
deriving DecidableEq, Repr

/-- A required wire field annotated `int`. -/
def expectInt : JVal → Except DecodeError Int
  | .jInt n => .ok n
  | _ => .error (.badValue "int-field")

/-- A required wire field annotated `str` (Python raises TypeError further
down when the value is not a string). -/
def expectStr : JVal → Except DecodeError String
  | .jStr s => .ok s
  | _ => .error (.badValue "str-field")

/-- An optional string field read with `dict.get`: an absent key or a null
value is `None`. -/
def optStrField : Option JVal → Except DecodeError (Option String)
  | none => .ok none
  | some .jNull => .ok none
  | some (.jStr s) => .ok (some s)
  | some _ => .error (.badValue "str-field")

/-- An optional integer field read with `dict.get`. -/
def optIntField : Option JVal → Except DecodeError (Option Int)
  | none => .ok none
  | some .jNull => .ok none
  | some (.jInt n) => .ok (some n)
  | some _ => .error (.badValue "int-field")

/-- `User.from_dict`: `discord_id = input_dict.get('discordID')`, then the
constructor call with `id=input_dict["id"]` (KeyError when absent), the
optional fields via `dict.get`, and
`discord_id=int(discord_id) if discord_id is not None else None`. -/
def User.from_dict (input_dict : Doc) : Except DecodeError User := do
  let discordID := pyGet input_dict "discordID"
  let idv ← pyIndex input_dict "id"
  let id ← expectInt idv
  let name ← optStrField (pyGet input_dict "name")
  let email ← optStrField (pyGet input_dict "email")
  let growid ← optStrField (pyGet input_dict "growid")
  let balance ← optIntField (pyGet input_dict "balance")
  let discord_id ←
    match discordID with
    | none => pure none
    | some .jNull => pure none
    | some v => do
      let n ← pyInt v
      pure (some n)
  return ⟨id, name, email, growid, balance, discord_id⟩

/-- Python `str(x)` on an optional integer: `str(None)` is the literal
string `"None"`. -/
def pyStrOfOptInt : Option Int → String
  | none => "None"
  | some n => toString n

/-- An optional value placed in a dict: Python `None` becomes JSON null. -/
def optJStr : Option String → JVal
  | none => .jNull
  | some s => .jStr s

/-- An optional integer placed in a dict. -/
def optJInt : Option Int → JVal
  | none => .jNull
  | some n => .jInt n

/-- `User.as_dict`: the `UserData(...)` literal, with
`discordID=str(self.discord_id)` stringified unconditionally. -/
def User.as_dict (u : User) : Doc :=
  [("id", .jInt u.id),
   ("name", optJStr u.name),
   ("email", optJStr u.email),
   ("growid", optJStr u.growid),
   ("balance", optJInt u.balance),
   ("discordID", .jStr (pyStrOfOptInt u.discord_id))]

/-- The `self_info` list built on every `User.__next__` call. -/
def User.self_info (u : User) : List (String × JVal) :=
  [("id", .jInt u.id), ("name", optJStr u.name), ("email", optJStr u.email),
   ("growid", optJStr u.growid), ("balance", optJInt u.balance),
   ("discordID", .jStr (pyStrOfOptInt u.discord_id))]

/-- Python list indexing, where a negative index counts from the end. -/
def pyListGet (l : List (String × JVal)) (i : Int) : Option (String × JVal) :=
  let j : Int := if i < 0 then i + l.length else i
  if j < 0 then none else l.get? j.toNat

/-- `User.__next__` with the cursor at `n`: yields
`self_info[self._n - 1]` while `self._n <= len(self_info)`, else
StopIteration (`none`). -/
def User.next (u : User) (n : Nat) : Option (String × JVal) :=
  if n ≤ (User.self_info u).length then pyListGet (User.self_info u) ((n : Int) - 1)
  else none

/-- The iteration loop from cursor `n`, with enough fuel to outlast the
cursor range `__next__` accepts. -/
def User.iterAux (u : User) : Nat → Nat → List (String × JVal)
  | 0, _ => []
  | fuel + 1, n =>
    match User.next u n with
    | some p => p :: User.iterAux u fuel (n + 1)
    | none => []

/-- Everything `for ... in user` yields after `__iter__` resets the cursor
to 0. -/
def User.iterList (u : User) : List (String × JVal) :=
  User.iterAux u 16 0

/-- The response object of claim C2. -/
def c2Input : Doc :=
  [("id", .jInt 1916), ("name", .jStr "BobDotCom"), ("growid", .jStr "Bob430"),
   ("balance", .jInt 3), ("discordID", .jStr "690420846774321221")]

/-- The user C2's response decodes to. -/
def c2User : User :=
  ⟨1916, some "BobDotCom", none, some "Bob430", some 3, some 690420846774321221⟩

/-- C2, counterexample: iterating the decoded user does not yield the
claimed six pairs ending in `("discord_id", 690420846774321221)` — the
cursor starts at `self_info[-1]`, so the key is `discordID`, the value is
the string form, and seven pairs come out. -/
theorem user_iter_six_pairs_counterexample :
    User.from_dict c2Input = .ok c2User ∧
    User.iterList c2User ≠
      [("id", .jInt 1916), ("name", .jStr "BobDotCom"), ("email", .jNull),
       ("growid", .jStr "Bob430"), ("balance", .jInt 3),
       ("discord_id", .jInt 690420846774321221)] := by
  exact ⟨rfl, by decide⟩

/-- C2 (amended): decoding the C2 response yields a user whose email is
absent and whose `discord_id` is the integer 690420846774321221; iterating
that user yields seven pairs — `("discordID", "690420846774321221")` first
(the off-by-one start at index -1), then the six `self_info` pairs in
order, the last being `("discordID", "690420846774321221")` again. -/
theorem user_from_dict_iter_amended :
    User.from_dict c2Input =
      .ok ⟨1916, some "BobDotCom", none, some "Bob430", some 3,
           some 690420846774321221⟩ ∧
    User.iterList
        ⟨1916, some "BobDotCom", none, some "Bob430", some 3,
         some 690420846774321221⟩ =
      [("discordID", .jStr "690420846774321221"), ("id", .jInt 1916),
       ("name", .jStr "BobDotCom"), ("email", .jNull), ("growid", .jStr "Bob430"),
       ("balance", .jInt 3), ("discordID", .jStr "690420846774321221")] := by
  constructor <;> rfl

/-- C4: the user whose optional fields are all absent. -/
def c4User : User := ⟨1, none, none, none, none, none⟩

/-- C4 (code bug): encoding a user with no `discord_id` emits
`discordID="None"`, and decoding that dict fails on `int("None")` instead
of round-tripping. -/
theorem user_roundtrip_fails_on_absent_discord_id :
    pyGet (User.as_dict c4User) "discordID" = some (.jStr "None") ∧
    User.from_dict (User.as_dict c4User) = .error (.badValue "int") := by
  constructor <;> rfl

/-! ## transaction.py, with the client configuration from client.py -/

/-- The client's `default_redirects` mapping (keys `site`, `auth`, `pay`). -/
structure DefaultRedirects where
  site : String
  auth : Option String
  pay : Option String
deriving DecidableEq, Repr

/-- The configuration a `Client` holds that the dispatcher methods read. -/
structure ClientCfg where
  client : Int
  secret : String
  default_scopes : Scopes
  default_redirects : DefaultRedirects
deriving DecidableEq, Repr

/-- A parsed `datetime.datetime` (date and time of day). -/
structure DateTime where
  year : Nat
  month : Nat
  day : Nat
  hour : Nat
  minute : Nat
  second : Nat
deriving DecidableEq, Repr

/-- Gregorian leap year, as `datetime` validates the day of month. -/
def isLeapYear (y : Nat) : Bool :=
  y % 4 == 0 && (y % 100 != 0 || y % 400 == 0)

/-- Days in a month. -/
def daysInMonth (y m : Nat) : Nat :=
  if m = 2 then (if isLeapYear y then 29 else 28)
  else if m = 4 || m = 6 || m = 9 || m = 11 then 30
  else 31

/-- Split a character list on a separator; always returns at least one
(possibly empty) piece. -/
def splitOnCharL (sep : Char) : List Char → List (List Char)
  | [] => [[]]
  | c :: rest =>
    match splitOnCharL sep rest with
    | [] => [[c]]
    | h :: t => if c = sep then [] :: h :: t else (c :: h) :: t

/-- `datetime.datetime.strptime(value, '%Y-%m-%d %H:%M:%S')`: a date, one
space, a time, each component decimal, validated against calendar and
clock ranges; `none` models the ValueError on a mismatch. -/
def parseDateTime (s : String) : Option DateTime :=
  match splitOnCharL ' ' s.data with
  | [d, t] =>
    match splitOnCharL '-' d, splitOnCharL ':' t with
    | [ys, ms, ds], [hs, mins, ss] => do
      let y ← digitsToNat ys
      let mo ← digitsToNat ms
      let da ← digitsToNat ds
      let h ← digitsToNat hs
      let mi ← digitsToNat mins
      let se ← digitsToNat ss
      if 1 ≤ mo ∧ mo ≤ 12 ∧ 1 ≤ da ∧ da ≤ daysInMonth y mo ∧
          h ≤ 23 ∧ mi ≤ 59 ∧ se ≤ 59 then
        some ⟨y, mo, da, h, mi, se⟩
      else
        none
    | _, _ => none
  | _ => none

/-- What the `Transaction.user` attribute can hold at runtime: Python
`None`, a bare wire value, or a `User(id=...)` object whose `id` holds one
of these (the object's other fields default to `None`). -/
inductive UserRef where
  | pyNone
  | wire (v : JVal)
  | userObj (id : UserRef)
deriving DecidableEq, Repr

/-- The `Transaction.user` property setter: `self._user = User(id=value)` —
whatever is assigned gets wrapped in a fresh `User`. -/
def setUserAttr (value : UserRef) : UserRef :=
  .userObj value

/-- A `Transaction` object: raw wire values for `id`, `party` and `amount`
(stored unconverted), the user reference the setter produced, the
`int`-annotated status, the parsed timestamp, and the owning client. -/
structure Transaction where
  id : EVal
  user : UserRef
  party : Option JVal
  amount : Option JVal
  status : Option Int
  datetime : Option DateTime
  client : ClientCfg
deriving DecidableEq, Repr

/-- `Transaction.__init__`: stores the fields, routes `user` through the
property setter, and parses `date_time` via `set_datetime` when given
(strptime may raise). -/
def Transaction.init (id : EVal) (client : ClientCfg) (user : UserRef)
    (party : Option JVal) (amount : Option JVal) (status : Option Int)
    (date_time : Option String) : Except DecodeError Transaction := do
  let dt ←
    match date_time with
    | none => pure none
    | some s =>
      match parseDateTime s with
      | some d => pure (some d)
      | none => Except.error .parseError
  return ⟨id, setUserAttr user, party, amount, status, dt, client⟩

/-- `Transaction.from_dict`: six required key lookups (KeyError when one is
missing), then the constructor call with `user=User(id=user)`,
`status=int(status)` and the raw `date_time` string. -/
def Transaction.from_dict (input_dict : Doc) (client : ClientCfg) :
    Except DecodeError Transaction := do
  let id_ ← pyIndex input_dict "id"
  let user ← pyIndex input_dict "user"
  let party ← pyIndex input_dict "party"
  let amount ← pyIndex input_dict "amount"
  let status ← pyIndex input_dict "status"
  let date_time ← pyIndex input_dict "date_time"
  let statusInt ← pyInt status
  let dts ← expectStr date_time
  Transaction.init (.prim id_) client (.userObj (.wire user)) (some party)
    (some amount) (some statusInt) (some dts)

/-- `Transaction.paid`: `bool(int(self.status)) if self.status is not None
else None`. -/
def Transaction.paid (t : Transaction) : Option Bool :=
  t.status.map (fun n => n != 0)

/-- A throwaway client configuration for concrete evaluations. -/
def cfg0 : ClientCfg :=
  ⟨12345, "test", Scopes.init true false false false, ⟨"", none, none⟩⟩

/-- The response object of claims C3 and C9. -/
def c9Input : Doc :=
  [("id", .jInt 1), ("user", .jInt 42), ("party", .jInt 7), ("amount", .jInt 5),
   ("status", .jStr "1"), ("date_time", .jStr "2021-05-01 12:00:00")]

/-- C3 (code bug): after decoding, the transaction's user is
`User(id=User(id=42))` — `from_dict` wraps the bare wire id once and the
`user` property setter wraps that user again — so the stored user's `id`
is itself a `User` object, not the bare numeric id the claim states. -/
theorem transaction_user_double_wrapped :
    (Transaction.from_dict c9Input cfg0).map (fun t => t.user) =
      .ok (.userObj (.userObj (.wire (.jInt 42)))) ∧
    UserRef.userObj (.userObj (.wire (.jInt 42))) ≠
      .userObj (.wire (.jInt 42)) := by
  exact ⟨rfl, by decide⟩

/-- C9: `paid` is `some true` exactly when `status` is present and
non-zero, `some false` exactly when it is present and zero, and `none`
exactly when it is absent; and decoding the C9 response yields a
transaction with `paid = some true` and the timestamp May 1, 2021,
12:00:00. -/
theorem transaction_paid_characterization :
    (∀ t : Transaction,
      (t.paid = some true ↔ ∃ n, t.status = some n ∧ n ≠ 0) ∧
      (t.paid = some false ↔ t.status = some 0) ∧
      (t.paid = none ↔ t.status = none)) ∧
    ((Transaction.from_dict c9Input cfg0).map (fun t => t.paid) =
        .ok (some true) ∧
      (Transaction.from_dict c9Input cfg0).map (fun t => t.datetime) =
        .ok (some ⟨2021, 5, 1, 12, 0, 0⟩)) := by
  constructor
  · intro t
    refine ⟨?_, ?_, ?_⟩ <;> cases h : t.status <;> simp [Transaction.paid, h]
  · exact ⟨rfl, rfl⟩

/-- C5: `Transaction.from_dict` fails with a missing-key decode error
whenever any one of the six required keys `id`, `user`, `party`, `amount`,
`status`, `date_time` is absent from the input object. -/
theorem transaction_from_dict_missing_key_fails (d : Doc) (cfg : ClientCfg)
    (k : String)
    (hk : k ∈ ["id", "user", "party", "amount", "status", "date_time"])
    (hmiss : pyGet d k = none) :
    ∃ k2, Transaction.from_dict d cfg = .error (.missingKey k2) := by
  cases h1 : pyGet d "id" with
  | none => exact ⟨"id", by simp only [Transaction.from_dict, pyIndex, h1]; rfl⟩
  | some v1 =>
    cases h2 : pyGet d "user" with
    | none =>
      exact ⟨"user", by simp only [Transaction.from_dict, pyIndex, h1, h2]; rfl⟩
    | some v2 =>
      cases h3 : pyGet d "party" with
      | none =>
        exact ⟨"party",
          by simp only [Transaction.from_dict, pyIndex, h1, h2, h3]; rfl⟩
      | some v3 =>
        cases h4 : pyGet d "amount" with
        | none =>
          exact ⟨"amount",
            by simp only [Transaction.from_dict, pyIndex, h1, h2, h3, h4]; rfl⟩
        | some v4 =>
          cases h5 : pyGet d "status" with
          | none =>
            exact ⟨"status",
              by simp only [Transaction.from_dict, pyIndex, h1, h2, h3, h4, h5]
                 rfl⟩
          | some v5 =>
            cases h6 : pyGet d "date_time" with
            | none =>
              exact ⟨"date_time",
                by simp only [Transaction.from_dict, pyIndex, h1, h2, h3, h4,
                      h5, h6]
                   rfl⟩
            | some v6 =>
              exfalso
              fin_cases hk <;> simp_all

/-- C5, witness: the empty object is missing every required key, and
decoding it fails with a missing-key error. -/
theorem transaction_from_dict_missing_key_fails_witness :
    ∃ k2, Transaction.from_dict [] cfg0 = .error (.missingKey k2) :=
  transaction_from_dict_missing_key_fails [] cfg0 "id" (by decide) rfl

/-! ## wrapper.py — the dispatcher's response handling

Each dispatcher method builds a payload, posts it, and then runs the same
response handling in both the blocking and the awaitable branch: check the
envelope's `success` flag, raise `RequestFailure` carrying the raw envelope
when it is falsy, and otherwise decode the endpoint's payload.  The
functions below embed that decode stage, taking the decoded JSON envelope
as input (the HTTP transport is an external collaborator). -/

/-- An error raised while handling a response: `RequestFailure` carrying the
raw envelope, or a decode failure of the payload. -/
inductive ApiError where
  | requestFailure (envelope : Envelope)
  | decode (e : DecodeError)
deriving DecidableEq, Repr

/-- Python truthiness of a flat value. -/
def pyTruthy : JVal → Bool
  | .jNull => false
  | .jBool b => b
  | .jInt n => n != 0
  | .jStr s => s != ""

/-- Python truthiness of an envelope value (a dict is truthy when
non-empty). -/
def pyTruthyE : EVal → Bool
  | .prim v => pyTruthy v
  | .obj fields => !fields.isEmpty

/-- The shared check `if not rtrn_json['success']: raise
RequestFailure(...)` each dispatcher method performs on the envelope. -/
def checkSuccess (env : Envelope) : Except ApiError Unit :=
  match envGet env "success" with
  | none => .error (.decode (.missingKey "success"))
  | some v => if pyTruthyE v then .ok () else .error (.requestFailure env)

/-- A required envelope key (`rtrn_json[k]`). -/
def envIndex (env : Envelope) (k : String) : Except ApiError EVal :=
  match envGet env k with
  | some v => .ok v
  | none => .error (.decode (.missingKey k))

/-- An envelope value expected to be a nested JSON object. -/
def expectObj : EVal → Except ApiError Doc
  | .obj d => .ok d
  | .prim _ => .error (.decode (.badValue "object"))

/-- `Auth.fetch_user` response handling: on success, decode
`rtrn_json['user']` into a `User`. -/
def Auth.fetch_user_decode (env : Envelope) : Except ApiError User := do
  checkSuccess env
  let uv ← envIndex env "user"
  let ud ← expectObj uv
  (User.from_dict ud).mapError .decode

/-- `Pay.create_transaction` response handling: on success, wrap the raw
`rtrn_json['transaction']` value in `Transaction(...)` with every other
constructor argument at its default. -/
def Pay.create_transaction_decode (client : ClientCfg) (env : Envelope) :
    Except ApiError Transaction := do
  checkSuccess env
  let tv ← envIndex env "transaction"
  (Transaction.init tv client .pyNone none none none none).mapError .decode

/-- `Pay.fetch_transaction` response handling: on success, decode
`rtrn_json['transaction']` with `Transaction.from_dict`. -/
def Pay.fetch_transaction_decode (client : ClientCfg) (env : Envelope) :
    Except ApiError Transaction := do
  checkSuccess env
  let tv ← envIndex env "transaction"
  let td ← expectObj tv
  (Transaction.from_dict td client).mapError .decode

/-- `Pay.send` response handling: on success, return the raw envelope. -/
def Pay.send_decode (env : Envelope) : Except ApiError Envelope := do
  checkSuccess env
  return env

/-- An envelope value put through `int()`. -/
def pyIntE : EVal → Except DecodeError Int
  | .prim v => pyInt v
  | .obj _ => .error (.badValue "int")

/-- `Pay.get_balance` response handling: on success, return
`int(rtrn_json['balance'])`. -/
def Pay.get_balance_decode (env : Envelope) : Except ApiError Int := do
  checkSuccess env
  let bv ← envIndex env "balance"
  (pyIntE bv).mapError .decode

/-- C6: every dispatcher call whose decoded envelope carries
`success: false` raises `RequestFailure` with the raw envelope, and no
value object is constructed (the result is that error, not a `User` or
`Transaction`). -/
theorem dispatcher_failure_envelope_raises (env : Envelope)
    (h : envGet env "success" = some (.prim (.jBool false))) :
    Auth.fetch_user_decode env = .error (.requestFailure env) ∧
    (∀ cfg, Pay.create_transaction_decode cfg env =
      .error (.requestFailure env)) ∧
    (∀ cfg, Pay.fetch_transaction_decode cfg env =
      .error (.requestFailure env)) ∧
    Pay.send_decode env = .error (.requestFailure env) ∧
    Pay.get_balance_decode env = .error (.requestFailure env) := by
  have hc : checkSuccess env = .error (.requestFailure env) := by
    simp [checkSuccess, h, pyTruthyE, pyTruthy]
  refine ⟨?_, fun cfg => ?_, fun cfg => ?_, ?_, ?_⟩ <;>
    simp only [Auth.fetch_user_decode, Pay.create_transaction_decode,
      Pay.fetch_transaction_decode, Pay.send_decode, Pay.get_balance_decode,
      hc] <;> rfl

/-- C6, witness: the envelope `{"success": false, "error": "bad token"}`
makes every dispatcher call fail with `RequestFailure`. -/
theorem dispatcher_failure_envelope_raises_witness :
    Auth.fetch_user_decode
        [("success", .prim (.jBool false)), ("error", .prim (.jStr "bad token"))] =
      .error (.requestFailure
        [("success", .prim (.jBool false)), ("error", .prim (.jStr "bad token"))]) ∧
    (∀ cfg, Pay.create_transaction_decode cfg
        [("success", .prim (.jBool false)), ("error", .prim (.jStr "bad token"))] =
      .error (.requestFailure
        [("success", .prim (.jBool false)), ("error", .prim (.jStr "bad token"))])) ∧
    (∀ cfg, Pay.fetch_transaction_decode cfg
        [("success", .prim (.jBool false)), ("error", .prim (.jStr "bad token"))] =
      .error (.requestFailure
        [("success", .prim (.jBool false)), ("error", .prim (.jStr "bad token"))])) ∧
    Pay.send_decode
        [("success", .prim (.jBool false)), ("error", .prim (.jStr "bad token"))] =
      .error (.requestFailure
        [("success", .prim (.jBool false)), ("error", .prim (.jStr "bad token"))]) ∧
    Pay.get_balance_decode
        [("success", .prim (.jBool false)), ("error", .prim (.jStr "bad token"))] =
      .error (.requestFailure
        [("success", .prim (.jBool false)), ("error", .prim (.jStr "bad token"))]) :=
  dispatcher_failure_envelope_raises
    [("success", .prim (.jBool false)), ("error", .prim (.jStr "bad token"))] rfl

/-- C10: on a success envelope, `get_balance` returns the `balance` value
coerced through `int()`. -/
theorem get_balance_int_coercion (env : Envelope) (sv : EVal) (v : JVal)
    (n : Int) (hs : envGet env "success" = some sv) (ht : pyTruthyE sv = true)
    (hb : envGet env "balance" = some (EVal.prim v)) (hv : pyInt v = .ok n) :
    Pay.get_balance_decode env = .ok n := by
  simp only [Pay.get_balance_decode, checkSuccess, envIndex, hs, ht, hb]
  show Except.mapError ApiError.decode (pyIntE (.prim v)) = .ok n
  simp only [pyIntE, hv]
  rfl

/-- C10, witness: `{"success": true, "balance": "42"}` yields the integer
42 (string-to-integer coercion from the wire). -/
theorem get_balance_int_coercion_witness :
    Pay.get_balance_decode
        [("success", .prim (.jBool true)), ("balance", .prim (.jStr "42"))] =
      .ok 42 :=
  get_balance_int_coercion
    [("success", .prim (.jBool true)), ("balance", .prim (.jStr "42"))]
    (.prim (.jBool true)) (.jStr "42") 42 rfl rfl rfl rfl

/-! ## wrapper.py — Auth.make_url (authorization URL construction) -/

/-- An error raised while building an authorization url: `RedirectUriNone`
(the spec's ConfigError) when no redirect uri is resolvable, or Python's
UnicodeEncodeError from `redirect_uri.encode('ascii')`. -/
inductive UrlError where
  | redirectUriNone
  | unicodeEncodeError
deriving DecidableEq, Repr

/-- `str.encode('ascii')`: the code points as bytes, failing on any
character outside ASCII. -/
def asciiEncode (s : String) : Except UrlError (List Nat) :=
  if s.data.all (fun c => c.toNat < 128) then .ok (s.data.map Char.toNat)
  else .error .unicodeEncodeError

/-- The base64 alphabet (RFC 4648, standard), as `base64.b64encode` uses
it. -/
def b64Alphabet : List Char :=
  "ABCDEFGHIJKLMNOPQRSTUVWXYZabcdefghijklmnopqrstuvwxyz0123456789+/".data

/-- The alphabet character of a 6-bit group. -/
def sextetChar (n : Nat) : Char :=
  b64Alphabet.getD n 'A'

/-- `base64.b64encode` on a byte list: 3 bytes to 4 characters, with `=`
padding for a 1- or 2-byte tail. -/
def b64encodeBytes : List Nat → List Char
  | b1 :: b2 :: b3 :: rest =>
    sextetChar (b1 / 4) :: sextetChar (b1 % 4 * 16 + b2 / 16) ::
      sextetChar (b2 % 16 * 4 + b3 / 64) :: sextetChar (b3 % 64) ::
      b64encodeBytes rest
  | [b1, b2] =>
    [sextetChar (b1 / 4), sextetChar (b1 % 4 * 16 + b2 / 16),
     sextetChar (b2 % 16 * 4), '=']
  | [b1] =>
    [sextetChar (b1 / 4), sextetChar (b1 % 4 * 16), '=', '=']
  | [] => []

/-- The hexadecimal digits of percent-encoding (`%XX`, uppercase). -/
def hexDigits : List Char :=
  "0123456789ABCDEF".data

/-- The hexadecimal digit of a 4-bit group. -/
def hexUpper (n : Nat) : Char :=
  hexDigits.getD n '0'

/-- `urllib.parse.quote_plus` on one character: alphanumerics and `_.-~`
pass through, a space becomes `+`, anything else is percent-encoded from
its code point. -/
def quotePlusChar (c : Char) : List Char :=
  if c.isAlphanum || c = '_' || c = '.' || c = '-' || c = '~' then [c]
  else if c = ' ' then ['+']
  else ['%', hexUpper (c.toNat / 16), hexUpper (c.toNat % 16)]

/-- `quote_plus` over a character list. -/
def quotePlus (l : List Char) : List Char :=
  (l.map quotePlusChar).flatten

/-- `urllib3.request.urlencode`: each key and value quoted and joined with
`=`, the pairs joined with `&`, in insertion order. -/
def urlencodePairs (ps : List (List Char × List Char)) : List Char :=
  List.intercalate ['&'] (ps.map (fun p => quotePlus p.1 ++ '=' :: quotePlus p.2))

/-- `str.format` with one positional argument, as the redirect template
substitution `redirect_uri.format(site)` uses it. -/
def strFormat (tmpl arg : String) : String :=
  tmpl.replace "\x7b0\x7d" arg

/-- The authorization url assembled from the encoded redirect bytes:
`'{0}?{1}'.format(url, params)` with the three form-encoded query
parameters in insertion order. -/
def authUrlFor (cfg : ClientCfg) (sc : Scopes) (bytes : List Nat) : String :=
  ⟨"https://auth.growstocks.xyz/user/authorize".data ++ '?' ::
    urlencodePairs
      [("client".data, (toString cfg.client).data),
       ("scopes".data, (Scopes.toStr sc).data),
       ("redirect_uri".data, b64encodeBytes bytes)]⟩

/-- `Auth.make_url`: resolve the redirect uri (the explicit argument, else
the client's auth default formatted with the site value, else raise
`RedirectUriNone`), resolve scopes (argument else client default), base64
the ASCII-encoded redirect uri, and assemble the authorize url. -/
def Auth.make_url (cfg : ClientCfg) (redirect_uri : Option String)
    (scopes : Option Scopes) : Except UrlError String := do
  let ruri ←
    match redirect_uri with
    | some r => pure r
    | none =>
      match cfg.default_redirects.auth with
      | none => Except.error .redirectUriNone
      | some tmpl => pure (strFormat tmpl cfg.default_redirects.site)
  let sc := match scopes with | none => cfg.default_scopes | some s => s
  let bytes ← asciiEncode ruri
  return authUrlFor cfg sc bytes

/-- With an explicit redirect uri, `make_url` is the ASCII encoding of the
argument mapped through the url assembly. -/
theorem make_url_some_eq (cfg : ClientCfg) (s : String) (scopes : Option Scopes) :
    Auth.make_url cfg (some s) scopes =
      (asciiEncode s).map
        (authUrlFor cfg
          (match scopes with | none => cfg.default_scopes | some sc => sc)) := by
  cases h : asciiEncode s <;> simp [Auth.make_url, h, Except.map]

/-- C7: `make_url` raises `RedirectUriNone` exactly when no redirect uri
is resolvable — never with an explicit redirect uri argument, whatever the
client's default-redirect configuration, and always when the argument is
absent and the auth default redirect is null. -/
theorem make_url_config_error_iff :
    (∀ (cfg : ClientCfg) (s : String) (scopes : Option Scopes),
      Auth.make_url cfg (some s) scopes ≠ .error .redirectUriNone) ∧
    (∀ (cfg : ClientCfg) (scopes : Option Scopes),
      cfg.default_redirects.auth = none →
        Auth.make_url cfg none scopes = .error .redirectUriNone) := by
  constructor
  · intro cfg s scopes heq
    rw [make_url_some_eq] at heq
    by_cases h : s.data.all (fun c => c.toNat < 128) <;>
      simp [asciiEncode, h, Except.map] at heq
  · intro cfg scopes h
    simp only [Auth.make_url, h]
    rfl

/-! ## The redirect-uri round trip (claim C8)

The spec-side extraction: take the query string of the produced url, find
the `redirect_uri` parameter, undo the percent-encoding, base64-decode,
and read the bytes back as ASCII. -/

/-- The value of a hexadecimal digit (both cases, as `unquote` accepts). -/
def hexVal (c : Char) : Option Nat :=
  if '0' ≤ c ∧ c ≤ '9' then some (c.toNat - 48)
  else if 'A' ≤ c ∧ c ≤ 'F' then some (c.toNat - 55)
  else if 'a' ≤ c ∧ c ≤ 'f' then some (c.toNat - 87)
  else none

/-- `urllib.parse.unquote_plus`: `+` back to space, `%XX` back to the code
point; a malformed escape stops the decoding and the tail passes through
(the url built by `make_url` never contains one). -/
def unquotePlus : List Char → List Char
  | [] => []
  | c :: rest =>
    if c = '+' then ' ' :: unquotePlus rest
    else if c = '%' then
      match rest with
      | a :: b :: rest2 =>
        match hexVal a, hexVal b with
        | some x, some y => Char.ofNat (16 * x + y) :: unquotePlus rest2
        | _, _ => c :: rest
      | _ => c :: rest
    else c :: unquotePlus rest

/-- The 6-bit group of a base64 alphabet character. -/
def charSextet (c : Char) : Option Nat :=
  if 'A' ≤ c ∧ c ≤ 'Z' then some (c.toNat - 65)
  else if 'a' ≤ c ∧ c ≤ 'z' then some (c.toNat - 97 + 26)
  else if '0' ≤ c ∧ c ≤ '9' then some (c.toNat - 48 + 52)
  else if c = '+' then some 62
  else if c = '/' then some 63
  else none

/-- `base64.b64decode`: 4 characters back to 3 bytes, with `=` padding
closing the input. -/
def b64decodeChars : List Char → Option (List Nat)
  | [] => some []
  | c1 :: c2 :: c3 :: c4 :: rest => do
    let s1 ← charSextet c1
    let s2 ← charSextet c2
    if c3 = '=' then
      if c4 = '=' ∧ rest = [] then some [s1 * 4 + s2 / 16] else none
    else do
      let s3 ← charSextet c3
      if c4 = '=' then
        if rest = [] then some [s1 * 4 + s2 / 16, s2 % 16 * 16 + s3 / 4]
        else none
      else do
        let s4 ← charSextet c4
        let bs ← b64decodeChars rest
        some ((s1 * 4 + s2 / 16) :: (s2 % 16 * 16 + s3 / 4) ::
          (s3 % 4 * 64 + s4) :: bs)
  | _ => none

/-- `bytes.decode('ascii')`. -/
def asciiDecode (bs : List Nat) : Option String :=
  if bs.all (fun b => b < 128) then some ⟨bs.map Char.ofNat⟩ else none

/-- Pull one query parameter out of a url: the piece after `?`, split on
`&`, the `key=value` pair with the given key. -/
def extractParam (key : List Char) (url : List Char) : Option (List Char) :=
  let query := (splitOnCharL '?' url).getD 1 []
  let parts := splitOnCharL '&' query
  (parts.filterMap (fun p =>
    match splitOnCharL '=' p with
    | [k, v] => if k = key then some v else none
    | _ => none)).head?

/-- The whole spec-side extraction of the redirect uri from the
authorization url. -/
def extractRedirect (url : String) : Option String :=
  (extractParam "redirect_uri".data url.data).bind fun v =>
    (b64decodeChars (unquotePlus v)).bind asciiDecode

/-! ### Splitting lemmas -/

theorem splitOnCharL_ne_nil (sep : Char) (l : List Char) :
    splitOnCharL sep l ≠ [] := by
  cases l with
  | nil => simp [splitOnCharL]
  | cons c rest =>
    simp only [splitOnCharL]
    cases splitOnCharL sep rest with
    | nil => simp
    | cons h t =>
      by_cases hc : c = sep <;> simp [hc]

theorem splitOnCharL_no_sep (sep : Char) (a : List Char) (h : sep ∉ a) :
    splitOnCharL sep a = [a] := by
  induction a with
  | nil => rfl
  | cons c cs ih =>
    simp only [List.mem_cons, not_or] at h
    have hne : ¬c = sep := fun hc => h.1 hc.symm
    simp only [splitOnCharL]
    rw [ih h.2]
    simp [hne]

theorem splitOnCharL_append_sep (sep : Char) (a b : List Char) (h : sep ∉ a) :
    splitOnCharL sep (a ++ sep :: b) = a :: splitOnCharL sep b := by
  induction a with
  | nil =>
    simp only [List.nil_append, splitOnCharL]
    cases hs : splitOnCharL sep b with
    | nil => exact absurd hs (splitOnCharL_ne_nil sep b)
    | cons x t => simp
  | cons c cs ih =>
    simp only [List.mem_cons, not_or] at h
    have hne : ¬c = sep := fun hc => h.1 hc.symm
    simp only [List.cons_append, splitOnCharL, List.append_eq]
    rw [ih h.2]
    simp [hne]

/-! ### Percent-encoding lemmas -/

theorem hexUpper_mem (n : Nat) : hexUpper n ∈ hexDigits := by
  unfold hexUpper
  cases hn : hexDigits.get? n with
  | none => rw [List.getD, hn]; decide
  | some c =>
    rw [List.getD, hn]
    exact List.get?_mem hn

theorem hexVal_hexUpper (n : Nat) (h : n < 16) :
    hexVal (hexUpper n) = some n := by
  interval_cases n <;> decide

/-- Characters `quote_plus` emits are never the query-structure characters
`&`, `=`, `?`. -/
theorem quotePlusChar_mem (c x : Char) (hx : x ∈ quotePlusChar c) :
    x ≠ '&' ∧ x ≠ '=' ∧ x ≠ '?' := by
  have hall : ∀ y ∈ hexDigits, y ≠ '&' ∧ y ≠ '=' ∧ y ≠ '?' := by decide
  unfold quotePlusChar at hx
  by_cases h1 : c.isAlphanum || c = '_' || c = '.' || c = '-' || c = '~'
  · rw [if_pos h1] at hx
    simp only [List.mem_singleton] at hx
    subst hx
    refine ⟨?_, ?_, ?_⟩ <;> rintro rfl <;> simp at h1
  · rw [if_neg h1] at hx
    by_cases h2 : c = ' '
    · rw [if_pos h2] at hx
      simp only [List.mem_singleton] at hx
      subst hx
      decide
    · rw [if_neg h2] at hx
      simp only [List.mem_cons, List.not_mem_nil, or_false] at hx
      rcases hx with rfl | rfl | rfl
      · decide
      · exact hall _ (hexUpper_mem _)
      · exact hall _ (hexUpper_mem _)

theorem quotePlus_mem (l : List Char) (x : Char) (hx : x ∈ quotePlus l) :
    x ≠ '&' ∧ x ≠ '=' ∧ x ≠ '?' := by
  unfold quotePlus at hx
  rw [List.mem_flatten] at hx
  obtain ⟨piece, hp, hxp⟩ := hx
  rw [List.mem_map] at hp
  obtain ⟨c, _, rfl⟩ := hp
  exact quotePlusChar_mem c x hxp

/-- A safe character passes `quote_plus` untouched and is in particular
neither `%` nor `+`. -/
theorem safe_not_escape (c : Char)
    (h1 : (c.isAlphanum || c = '_' || c = '.' || c = '-' || c = '~') = true) :
    c ≠ '%' ∧ c ≠ '+' := by
  constructor <;> rintro rfl <;> simp at h1

/-- `unquote_plus` on a list headed by a character that is neither escape. -/
theorem unquotePlus_safe (c : Char) (rest : List Char) (h1 : c ≠ '+')
    (h2 : c ≠ '%') :
    unquotePlus (c :: rest) = c :: unquotePlus rest := by
  cases rest with
  | nil => simp [unquotePlus, h1, h2]
  | cons a tail =>
    cases tail with
    | nil => simp [unquotePlus, h1, h2]
    | cons b r2 => simp [unquotePlus, h1, h2]

/-- `unquote_plus` turns a leading `+` back into a space. -/
theorem unquotePlus_plus (rest : List Char) :
    unquotePlus ('+' :: rest) = ' ' :: unquotePlus rest := by
  cases rest with
  | nil => simp [unquotePlus]
  | cons a tail =>
    cases tail with
    | nil => simp [unquotePlus]
    | cons b r2 => simp [unquotePlus]

/-- `unquote_plus` decodes a well-formed percent escape. -/
theorem unquotePlus_percent (a b : Char) (rest2 : List Char) (x y : Nat)
    (hx : hexVal a = some x) (hy : hexVal b = some y) :
    unquotePlus ('%' :: a :: b :: rest2) =
      Char.ofNat (16 * x + y) :: unquotePlus rest2 := by
  simp [unquotePlus, hx, hy]

/-- Percent-encoding then percent-decoding is the identity on characters
below 256 (every character `quote_plus` actually sees here is ASCII). -/
theorem unquotePlus_quotePlus (l : List Char) (hl : ∀ c ∈ l, c.toNat < 256) :
    unquotePlus (quotePlus l) = l := by
  induction l with
  | nil => rfl
  | cons c rest ih =>
    have hrest : ∀ x ∈ rest, x.toNat < 256 := fun x hx => hl x (by simp [hx])
    have hc : c.toNat < 256 := hl c (by simp)
    have hq : quotePlus (c :: rest) = quotePlusChar c ++ quotePlus rest := by
      simp [quotePlus]
    rw [hq]
    unfold quotePlusChar
    by_cases h1 : (c.isAlphanum || c = '_' || c = '.' || c = '-' || c = '~') = true
    · rw [if_pos h1]
      obtain ⟨hp, hplus⟩ := safe_not_escape c h1
      rw [List.singleton_append, unquotePlus_safe c _ hplus hp, ih hrest]
    · rw [if_neg h1]
      by_cases h2 : c = ' '
      · rw [if_pos h2, List.singleton_append, unquotePlus_plus, ih hrest, h2]
      · rw [if_neg h2]
        show unquotePlus ('%' :: hexUpper (c.toNat / 16) ::
          hexUpper (c.toNat % 16) :: quotePlus rest) = c :: rest
        rw [unquotePlus_percent (hexUpper (c.toNat / 16))
          (hexUpper (c.toNat % 16)) (quotePlus rest) (c.toNat / 16)
          (c.toNat % 16) (hexVal_hexUpper _ (by omega))
          (hexVal_hexUpper _ (by omega))]
        have harith : 16 * (c.toNat / 16) + c.toNat % 16 = c.toNat := by omega
        rw [harith, Char.ofNat_toNat, ih hrest]

/-! ### Base64 lemmas -/

/-- For every 6-bit group, the alphabet character decodes back to it, is
ASCII, and is not the padding character. -/
theorem sextet_facts (k : Nat) (h : k < 64) :
    charSextet (sextetChar k) = some k ∧ (sextetChar k).toNat < 128 ∧
      sextetChar k ≠ '=' := by
  interval_cases k <;> exact ⟨by decide, by decide, by decide⟩

/-- Base64 output is ASCII. -/
theorem b64encode_ascii :
    ∀ (bs : List Nat), (∀ b ∈ bs, b < 256) →
      ∀ c ∈ b64encodeBytes bs, c.toNat < 128
  | [], _, c, hc => by simp [b64encodeBytes] at hc
  | [b1], hb, c, hc => by
    have h1 : b1 < 256 := hb b1 (by simp)
    simp only [b64encodeBytes, List.mem_cons, List.not_mem_nil, or_false] at hc
    rcases hc with rfl | rfl | rfl | rfl
    · exact (sextet_facts (b1 / 4) (by omega)).2.1
    · exact (sextet_facts (b1 % 4 * 16) (by omega)).2.1
    · decide
    · decide
  | [b1, b2], hb, c, hc => by
    have h1 : b1 < 256 := hb b1 (by simp)
    have h2 : b2 < 256 := hb b2 (by simp)
    simp only [b64encodeBytes, List.mem_cons, List.not_mem_nil, or_false] at hc
    rcases hc with rfl | rfl | rfl | rfl
    · exact (sextet_facts (b1 / 4) (by omega)).2.1
    · exact (sextet_facts (b1 % 4 * 16 + b2 / 16) (by omega)).2.1
    · exact (sextet_facts (b2 % 16 * 4) (by omega)).2.1
    · decide
  | b1 :: b2 :: b3 :: rest, hb, c, hc => by
    have h1 : b1 < 256 := hb b1 (by simp)
    have h2 : b2 < 256 := hb b2 (by simp)
    have h3 : b3 < 256 := hb b3 (by simp)
    have hrest : ∀ b ∈ rest, b < 256 := fun b hbr => hb b (by simp [hbr])
    simp only [b64encodeBytes, List.mem_cons] at hc
    rcases hc with rfl | rfl | rfl | rfl | hc
    · exact (sextet_facts (b1 / 4) (by omega)).2.1
    · exact (sextet_facts (b1 % 4 * 16 + b2 / 16) (by omega)).2.1
    · exact (sextet_facts (b2 % 16 * 4 + b3 / 64) (by omega)).2.1
    · exact (sextet_facts (b3 % 64) (by omega)).2.1
    · exact b64encode_ascii rest hrest c hc

/-- Base64 decoding undoes base64 encoding. -/
theorem b64decode_b64encode :
    ∀ (bs : List Nat), (∀ b ∈ bs, b < 256) →
      b64decodeChars (b64encodeBytes bs) = some bs
  | [], _ => rfl
  | [b1], hb => by
    have h1 : b1 < 256 := hb b1 (by simp)
    have e1 := sextet_facts (b1 / 4) (by omega)
    have e2 := sextet_facts (b1 % 4 * 16) (by omega)
    simp [b64encodeBytes, b64decodeChars, e1.1, e2.1]
    omega
  | [b1, b2], hb => by
    have h1 : b1 < 256 := hb b1 (by simp)
    have h2 : b2 < 256 := hb b2 (by simp)
    have e1 := sextet_facts (b1 / 4) (by omega)
    have e2 := sextet_facts (b1 % 4 * 16 + b2 / 16) (by omega)
    have e3 := sextet_facts (b2 % 16 * 4) (by omega)
    simp [b64encodeBytes, b64decodeChars, e1.1, e2.1, e3.1, e3.2.2]
    omega
  | b1 :: b2 :: b3 :: rest, hb => by
    have h1 : b1 < 256 := hb b1 (by simp)
    have h2 : b2 < 256 := hb b2 (by simp)
    have h3 : b3 < 256 := hb b3 (by simp)
    have hrest : ∀ b ∈ rest, b < 256 := fun b hbr => hb b (by simp [hbr])
    have e1 := sextet_facts (b1 / 4) (by omega)
    have e2 := sextet_facts (b1 % 4 * 16 + b2 / 16) (by omega)
    have e3 := sextet_facts (b2 % 16 * 4 + b3 / 64) (by omega)
    have e4 := sextet_facts (b3 % 64) (by omega)
    have ih := b64decode_b64encode rest hrest
    simp [b64encodeBytes, b64decodeChars, e1.1, e2.1, e3.1, e3.2.2, e4.1,
      e4.2.2, ih]
    omega

/-- Reading ASCII bytes back gives the original string. -/
theorem asciiDecode_map_toNat (s : String)
    (h : s.data.all (fun c => c.toNat < 128) = true) :
    asciiDecode (s.data.map Char.toNat) = some s := by
  unfold asciiDecode
  rw [List.all_eq_true] at h
  rw [if_pos (by
    rw [List.all_eq_true]
    intro b hbm
    rw [List.mem_map] at hbm
    obtain ⟨c, hcm, rfl⟩ := hbm
    simpa using h c hcm)]
  congr 1
  cases s with
  | mk data =>
    simp only [List.map_map]
    show String.mk (data.map (Char.ofNat ∘ Char.toNat)) = String.mk data
    congr 1
    simp [Function.comp_def]

/-! ### Extraction of the redirect parameter -/

theorem not_mem_append_cons (x c : Char) (a b : List Char) (hxa : x ∉ a)
    (hxb : x ∉ b) (hxc : x ≠ c) : x ∉ a ++ c :: b := by
  intro hm
  rcases List.mem_append.1 hm with hm | hm
  · exact hxa hm
  · rcases List.mem_cons.1 hm with rfl | hm
    · exact hxc rfl
    · exact hxb hm

theorem intercalate_amp (x y z : List Char) :
    List.intercalate ['&'] [x, y, z] = x ++ '&' :: (y ++ '&' :: z) := by
  simp [List.intercalate, List.intersperse]

/-- Query parsing on the url `make_url` builds recovers the percent-encoded
`redirect_uri` value, whatever the client and scope strings are. -/
theorem extract_urlencoded (v1 v2 enc : List Char) :
    extractParam "redirect_uri".data
      ("https://auth.growstocks.xyz/user/authorize".data ++ '?' ::
        urlencodePairs [("client".data, v1), ("scopes".data, v2),
          ("redirect_uri".data, enc)]) = some (quotePlus enc) := by
  have hqamp : ∀ (l : List Char), '&' ∉ quotePlus l :=
    fun l hm => absurd rfl (quotePlus_mem l '&' hm).1
  have hqeq : ∀ (l : List Char), '=' ∉ quotePlus l :=
    fun l hm => absurd rfl (quotePlus_mem l '=' hm).2.1
  have hqqm : ∀ (l : List Char), '?' ∉ quotePlus l :=
    fun l hm => absurd rfl (quotePlus_mem l '?' hm).2.2
  have hpar : urlencodePairs [("client".data, v1), ("scopes".data, v2),
      ("redirect_uri".data, enc)] =
      (quotePlus "client".data ++ '=' :: quotePlus v1) ++ '&' ::
        ((quotePlus "scopes".data ++ '=' :: quotePlus v2) ++ '&' ::
          (quotePlus "redirect_uri".data ++ '=' :: quotePlus enc)) := by
    simp only [urlencodePairs, List.map_cons, List.map_nil]
    exact intercalate_amp _ _ _
  have hNo1 : '&' ∉ quotePlus "client".data ++ '=' :: quotePlus v1 :=
    not_mem_append_cons _ _ _ _ (hqamp _) (hqamp _) (by decide)
  have hNo2 : '&' ∉ quotePlus "scopes".data ++ '=' :: quotePlus v2 :=
    not_mem_append_cons _ _ _ _ (hqamp _) (hqamp _) (by decide)
  have hNo3 : '&' ∉ quotePlus "redirect_uri".data ++ '=' :: quotePlus enc :=
    not_mem_append_cons _ _ _ _ (hqamp _) (hqamp _) (by decide)
  have hNoQ : '?' ∉ urlencodePairs [("client".data, v1), ("scopes".data, v2),
      ("redirect_uri".data, enc)] := by
    rw [hpar]
    refine not_mem_append_cons _ _ _ _ ?_ ?_ (by decide)
    · exact not_mem_append_cons _ _ _ _ (hqqm _) (hqqm _) (by decide)
    · refine not_mem_append_cons _ _ _ _ ?_ ?_ (by decide)
      · exact not_mem_append_cons _ _ _ _ (hqqm _) (hqqm _) (by decide)
      · exact not_mem_append_cons _ _ _ _ (hqqm _) (hqqm _) (by decide)
  unfold extractParam
  rw [splitOnCharL_append_sep '?' _ _ (by decide),
    splitOnCharL_no_sep '?' _ hNoQ]
  simp only [List.getD_cons_succ, List.getD_cons_zero]
  rw [hpar, splitOnCharL_append_sep '&' _ _ hNo1,
    splitOnCharL_append_sep '&' _ _ hNo2, splitOnCharL_no_sep '&' _ hNo3]
  rw [List.filterMap_cons, List.filterMap_cons, List.filterMap_cons]
  rw [splitOnCharL_append_sep '=' _ _ (hqeq _), splitOnCharL_no_sep '=' _
    (hqeq _)]
  rw [splitOnCharL_append_sep '=' _ _ (hqeq _), splitOnCharL_no_sep '=' _
    (hqeq _)]
  rw [splitOnCharL_append_sep '=' _ _ (hqeq _), splitOnCharL_no_sep '=' _
    (hqeq _)]
  have hk1 : quotePlus "client".data = "client".data := by decide
  have hk2 : quotePlus "scopes".data = "scopes".data := by decide
  have hk3 : quotePlus "redirect_uri".data = "redirect_uri".data := by decide
  rw [hk1, hk2, hk3]
  simp

/-- C8: for every ASCII string used as the explicit redirect uri, the url
`make_url` returns round-trips — extracting the `redirect_uri` query
parameter, undoing the percent-encoding and base64-decoding yields the
original string. -/
theorem make_url_redirect_roundtrip (cfg : ClientCfg) (s : String)
    (scopes : Option Scopes)
    (h : s.data.all (fun c => c.toNat < 128) = true) :
    ∃ url, Auth.make_url cfg (some s) scopes = .ok url ∧
      extractRedirect url = some s := by
  have hb128 : ∀ b ∈ s.data.map Char.toNat, b < 128 := by
    intro b hb
    rw [List.mem_map] at hb
    obtain ⟨c, hcm, rfl⟩ := hb
    rw [List.all_eq_true] at h
    simpa using h c hcm
  have hb256 : ∀ b ∈ s.data.map Char.toNat, b < 256 :=
    fun b hb => Nat.lt_trans (hb128 b hb) (by omega)
  set sc0 := (match scopes with
    | none => cfg.default_scopes
    | some sc => sc) with hsc
  have hok : Auth.make_url cfg (some s) scopes =
      .ok (authUrlFor cfg sc0 (s.data.map Char.toNat)) := by
    rw [make_url_some_eq, ← hsc]
    have he : asciiEncode s = .ok (s.data.map Char.toNat) := by
      simp [asciiEncode, h]
    rw [he]
    rfl
  refine ⟨_, hok, ?_⟩
  have henc256 : ∀ c ∈ b64encodeBytes (s.data.map Char.toNat), c.toNat < 256 :=
    fun c hc =>
      Nat.lt_trans (b64encode_ascii (s.data.map Char.toNat) hb256 c hc)
        (by omega)
  show (extractParam "redirect_uri".data
      ("https://auth.growstocks.xyz/user/authorize".data ++ '?' ::
        urlencodePairs
          [("client".data, (toString cfg.client).data),
           ("scopes".data, (Scopes.toStr sc0).data),
           ("redirect_uri".data,
             b64encodeBytes (s.data.map Char.toNat))])).bind
      (fun v => (b64decodeChars (unquotePlus v)).bind asciiDecode) = some s
  rw [extract_urlencoded]
  show (b64decodeChars (unquotePlus (quotePlus
    (b64encodeBytes (s.data.map Char.toNat))))).bind asciiDecode = some s
  rw [unquotePlus_quotePlus _ henc256, b64decode_b64encode _ hb256]
  show asciiDecode (s.data.map Char.toNat) = some s
  exact asciiDecode_map_toNat s h

/-- C8, witness: a concrete ASCII redirect uri survives the round trip
through the authorization url. -/
theorem make_url_redirect_roundtrip_witness :
    ∃ url, Auth.make_url cfg0 (some "http://example.com/cb") none = .ok url ∧
      extractRedirect url = some "http://example.com/cb" :=
  make_url_redirect_roundtrip cfg0 "http://example.com/cb" none (by decide)

end Growstocks
